import Mathlib

/-!
Shallow embedding of the bitfield evaluation algorithm
`ASTNodeBitfield::createPatterns` from
`src/lib/include/pl/core/ast/ast_node_bitfield.hpp` (referred to below by its
source line numbers), together with theorems settling the specification
claims about it.  The evaluator surface, the control-flow signal and the
cursor arithmetic are external collaborators of the node (spec section 6) and
are modelled from the spec where noted; everything else is translated
directly from the source.
-/

/-- Bit-level read cursor: a byte offset plus a bit offset.  Mirrors the
`byteOffset` and `bitOffset` pair returned by
`Evaluator::getBitwiseReadOffset` (source lines 36 and 107-111). -/
structure BitPosition where
  byteOffset : Nat
  bitOffset : Nat
deriving DecidableEq, Repr

/-- Total number of bits before the cursor, `byteOffset * 8 + bitOffset`,
exactly the quantity formed on source lines 110-111. -/
def BitPosition.toBits (p : BitPosition) : Nat :=
  p.byteOffset * 8 + p.bitOffset

/-- Modelled from the spec: `Evaluator::getBitwiseReadOffsetAndIncrement`
(called on source line 92) is not under `src/`; spec sections 2 and 3
describe cursor advance with the bit offset normalized into [0,7] and the
byte offset absorbing the overflow. -/
def BitPosition.advanceBits (p : BitPosition) (n : Nat) : BitPosition :=
  ⟨(p.toBits + n) / 8, (p.toBits + n) % 8⟩

/-- Absolute bit distance between two cursor positions, as computed on
source lines 110-112
(`startOffset > endOffset ? startOffset - endOffset : endOffset - startOffset`). -/
def bitDistance (a b : BitPosition) : Nat :=
  if a.toBits > b.toBits then a.toBits - b.toBits else b.toBits - a.toBits

/-- Modelled from the spec: the evaluator's pending early-exit signal
(`ControlFlowStatement` is declared outside `src/`); the bitfield loop reads
the four values used on source lines 126-137. -/
inductive ControlFlowStatement where
  | None
  | Return
  | Break
  | Continue
deriving DecidableEq, Repr

/-- Modelled from the spec: the evaluator surface used by the bitfield node
(spec section 6) — bit cursor, global reversed-flag, pending early-exit
signal, whether an array/loop evaluation is in progress
(`getCurrentArrayIndex().has_value()`, source line 126), section id, and the
default endianness (the pattern endianness consulted on source lines 88-89 is
inherited from the evaluator at pattern construction). -/
structure Evaluator where
  bitPos : BitPosition
  reversed : Bool
  ctrlFlow : ControlFlowStatement
  inArray : Bool
  sectionId : Nat
  endianLittle : Bool
deriving DecidableEq, Repr

/-- Modelled from the spec: the shape of a produced member pattern as far as
the assembly loop (source lines 140-148) inspects it — whether the pattern is
a bitfield member (the `dynamic_cast` on line 141), whether it is padding
(line 143), plus an identity tag.  The non-owning parent back-reference set
on line 142 carries no information observable by any claim and is not
modelled. -/
structure Pattern where
  isBitfieldMember : Bool
  isPadding : Bool
  id : Nat
deriving DecidableEq, Repr

/-- The errors `createPatterns` can raise, one constructor per throw site:
`deprecatedAttribute` is the E0008 on line 52, `orderArityMismatch` line 59,
`invalidOrderValue` line 73, `voidDirection` line 76, `zeroFixedSize` line
82, `voidSize` line 85, and `fieldsExceededSize` is the E0005 on line 115
(carrying the index of the offending field declaration, standing for the
`node` argument of the throw). -/
inductive EvalError where
  | deprecatedAttribute (attrName : String)
  | orderArityMismatch (received : Nat)
  | invalidOrderValue (value : Nat)
  | voidDirection
  | voidSize
  | zeroFixedSize
  | fieldsExceededSize (entryIdx : Nat)
deriving DecidableEq, Repr

/-- Whether an error is a semantic (attribute) error, i.e. one of the E0008
throws; only `fieldsExceededSize` is the E0005 size error. -/
def EvalError.isAttributeError : EvalError → Bool
  | .fieldsExceededSize _ => false
  | _ => true

/-- Modelled from the spec: a field declaration's evaluate capability (spec
section 6): given the evaluator it returns zero or more patterns together
with the updated evaluator, or an error together with the evaluator state at
the throw point (a C++ exception leaves all mutations made so far in
place). -/
structure FieldEntry where
  eval : Evaluator → Except (EvalError × Evaluator) (List Pattern × Evaluator)

/-- The `bitfield_order` attribute's argument list (source line 57).  Each
argument is modelled by its evaluation result per spec section 6: `some v`
for a literal convertible to an unsigned integer (the `toUnsigned` calls on
lines 66 and 80), `none` for a void/non-literal result. -/
structure OrderAttribute where
  args : List (Option Nat)
deriving DecidableEq, Repr

/-- The bitfield declaration node: its ordered entries (`m_entries`) and the
attributes `createPatterns` looks up by name — the two deprecated
direction-only attributes (lines 47-49) and the optional `bitfield_order`
attribute (line 55). -/
structure ASTNodeBitfield where
  entries : List FieldEntry
  hasLeftToRight : Bool
  hasRightToLeft : Bool
  orderAttribute : Option OrderAttribute

/-- BitfieldOrder enumeration, source lines 14-17. -/
inductive BitfieldOrder where
  | MostToLeastSignificant
  | LeastToMostSignificant
deriving DecidableEq, Repr, BEq

/-- The runtime result: the `PatternBitfield` as configured by
`createPatterns` — start position (lines 36-37), section id (line 39), bit
size (line 118), reversed-flag (line 150) and visible member list (line
153). -/
structure BitfieldPattern where
  startPos : BitPosition
  bitSize : Nat
  reversed : Bool
  sectionId : Nat
  fields : List Pattern
deriving DecidableEq, Repr

/-- The deprecated-attribute lookup of source lines 46-50: `left_to_right`
is checked first, then `right_to_left`. -/
def badDirectionAttribute (node : ASTNodeBitfield) : Option String :=
  if node.hasLeftToRight then some "left_to_right"
  else if node.hasRightToLeft then some "right_to_left"
  else none

/-- The direction-resolution lambda of source lines 64-77: a literal whose
unsigned value is 0 or 1 selects the order; any other literal value is a
semantic error, and a non-literal (void) result is a semantic error. -/
def resolveDirection : Option Nat → Except EvalError BitfieldOrder
  | some 0 => .ok BitfieldOrder.MostToLeastSignificant
  | some 1 => .ok BitfieldOrder.LeastToMostSignificant
  | some v => .error (.invalidOrderValue v)
  | none => .error .voidDirection

/-- The size-resolution lambda of source lines 78-86: a non-literal (void)
result or a zero value is a semantic error, anything else is the declared
fixed size. -/
def resolveSize : Option Nat → Except EvalError Nat
  | none => .error .voidSize
  | some 0 => .error .zeroFixedSize
  | some v => .ok v

/-- Source lines 55-97: resolve the optional `bitfield_order` attribute.
Returns `(reversedChanged, fixedSize, ev)`: whether the global reversed-flag
was overwritten (in which case the cursor was also pre-advanced by the
declared size, line 92), the declared fixed size in bits (`0` when the
attribute is absent), and the resulting evaluator.  All throws in this
region happen before any evaluator mutation, so an error leaves the
evaluator untouched. -/
def processOrderAttribute (node : ASTNodeBitfield) (ev : Evaluator) :
    Except EvalError (Bool × Nat × Evaluator) :=
  match node.orderAttribute with
  | none => .ok (false, 0, ev)
  | some attr =>
    if attr.args.length = 2 then
      match resolveDirection (attr.args.getD 0 none) with
      | .error e => .error e
      | .ok order =>
        match resolveSize (attr.args.getD 1 none) with
        | .error e => .error e
        | .ok size =>
          let shouldBeReversed :=
            (order == BitfieldOrder.MostToLeastSignificant && ev.endianLittle)
              || (order == BitfieldOrder.LeastToMostSignificant && !ev.endianLittle)
          if ev.reversed ≠ shouldBeReversed then
            .ok (true, size,
                 { ev with bitPos := ev.bitPos.advanceBits size,
                           reversed := shouldBeReversed })
          else
            .ok (false, size, ev)
    else
      .error (.orderArityMismatch attr.args.length)

/-- The per-field loop of source lines 121-138, carrying the running
`potentialPatterns` accumulator, the bit size last stored by `setSize`
(lines 108-119) and the evaluator.  `idx` is the position of the current
entry within `m_entries`, used to cite the offending declaration in the
E0005 throw. -/
def runLoop (fixedSize : Nat) (initialPosition : BitPosition) :
    List FieldEntry → Nat → List Pattern → Nat → Evaluator →
    Except (EvalError × Evaluator) (List Pattern × Nat × Evaluator)
  | [], _, acc, bitSize, ev => .ok (acc, bitSize, ev)
  | entry :: rest, idx, acc, _bitSize, ev =>
    match entry.eval ev with
    | .error e => .error e
    | .ok (patterns, ev1) =>
      let totalBitSize := bitDistance initialPosition ev1.bitPos
      if 0 < fixedSize ∧ fixedSize < totalBitSize then
        .error (.fieldsExceededSize idx, ev1)
      else
        let newBitSize := if 0 < fixedSize then fixedSize else totalBitSize
        let acc1 := acc ++ patterns
        if ev1.inArray then
          runLoop fixedSize initialPosition rest (idx + 1) acc1 newBitSize ev1
        else
          match ev1.ctrlFlow with
          | ControlFlowStatement.Return => .ok (acc1, newBitSize, ev1)
          | ControlFlowStatement.Break =>
              .ok (acc1, newBitSize, { ev1 with ctrlFlow := ControlFlowStatement.None })
          | ControlFlowStatement.Continue =>
              .ok ([], newBitSize, { ev1 with ctrlFlow := ControlFlowStatement.None })
          | ControlFlowStatement.None =>
              runLoop fixedSize initialPosition rest (idx + 1) acc1 newBitSize ev1

/-- The assembly loop of source lines 140-148: every accumulated pattern
that is a bitfield member marked as padding is excluded from the visible
member list; everything else passes through in order. -/
def assembleFields (potentialPatterns : List Pattern) : List Pattern :=
  potentialPatterns.filter (fun p => !(p.isBitfieldMember && p.isPadding))

/-- Source lines 33-160, `ASTNodeBitfield::createPatterns`, step by step:
snapshot the cursor and the reversed-flag (lines 36, 41); reject deprecated
direction attributes (lines 45-53); resolve the `bitfield_order` attribute
(lines 55-97); snapshot `initialPosition` (line 107, after any
pre-reservation advance); run the field loop (lines 121-138); assemble the
visible member list (lines 140-148); record the in-evaluation reversed-flag
in the pattern (line 150); rewind the cursor to `initialPosition` when the
reversed-flag was changed (lines 151-152); finally restore the global
reversed-flag (line 157).  `updateRuntime` (line 34) is a telemetry hook,
`pushScope`/`popScope` (lines 102-105) maintain a name-resolution scope, and
`applyTypeAttributes` (line 155) is the generic attribute pipeline applied
to a node carrying no further attributes; none of them touches the modelled
state.  An error propagates as a C++ exception, carrying the evaluator state
at the throw point: the restorations of lines 151-157 do not run on that
path. -/
def createPatterns (node : ASTNodeBitfield) (ev : Evaluator) :
    Except (EvalError × Evaluator) (BitfieldPattern × Evaluator) :=
  let position := ev.bitPos
  let prevReversed := ev.reversed
  match badDirectionAttribute node with
  | some attrName => .error (.deprecatedAttribute attrName, ev)
  | none =>
    match processOrderAttribute node ev with
    | .error e => .error (e, ev)
    | .ok (reversedChanged, fixedSize, ev1) =>
      let initialPosition := ev1.bitPos
      match runLoop fixedSize initialPosition node.entries 0 [] 0 ev1 with
      | .error e => .error e
      | .ok (potentialPatterns, _bitSize, ev2) =>
        let ev3 := if reversedChanged then { ev2 with bitPos := initialPosition } else ev2
        .ok ({ startPos := position, bitSize := _bitSize, reversed := ev2.reversed,
               sectionId := ev.sectionId, fields := assembleFields potentialPatterns },
             { ev3 with reversed := prevReversed })

/-! Concrete building blocks used by witnesses and counterexamples. -/

/-- A convenient concrete evaluator state: cursor at the origin, reversed-flag
clear, no pending signal, not inside an array, little-endian. -/
def baseEv : Evaluator :=
  { bitPos := ⟨0, 0⟩, reversed := false, ctrlFlow := ControlFlowStatement.None,
    inArray := false, sectionId := 0, endianLittle := true }

/-- A field whose evaluation consumes `n` bits and produces no patterns. -/
def advanceEntry (n : Nat) : FieldEntry :=
  ⟨fun ev => .ok ([], { ev with bitPos := ev.bitPos.advanceBits n })⟩

/-- A field whose evaluation consumes `n` bits and produces the single
pattern `p`. -/
def advancePatternEntry (n : Nat) (p : Pattern) : FieldEntry :=
  ⟨fun ev => .ok ([p], { ev with bitPos := ev.bitPos.advanceBits n })⟩

/-- A field whose evaluation consumes nothing, produces nothing, and leaves
the early-exit signal `c` pending. -/
def signalEntry (c : ControlFlowStatement) : FieldEntry :=
  ⟨fun ev => .ok ([], { ev with ctrlFlow := c })⟩

/-- A bitfield declaration with the given entries and no attributes. -/
def plainNode (entries : List FieldEntry) : ASTNodeBitfield :=
  ⟨entries, false, false, none⟩

/-- A named (non-padding) bitfield member pattern. -/
def namedMemberA : Pattern := ⟨true, false, 1⟩

/-- A padding bitfield member pattern. -/
def paddingMember : Pattern := ⟨true, true, 2⟩

/-- A bitfield declaring `bitfield_order(0, 4)` (MostToLeastSignificant,
fixed size 4 bits) whose single field consumes 8 bits: under the
little-endian `baseEv` the resolver flips the reversed-flag, then the field
overflows the fixed size. -/
def c1Node : ASTNodeBitfield := ⟨[advanceEntry 8], false, false, some ⟨[some 0, some 4]⟩⟩

/-- The evaluator state carried by the size error that `c1Node` raises: the
cursor sits after the overflowing field and the reversed-flag is still the
overwritten value `true`. -/
def c1ErrEv : Evaluator := { baseEv with bitPos := ⟨1, 4⟩, reversed := true }

/-- A bitfield declaring `bitfield_order(0, 16)` with one 4-bit field:
under `baseEv` the resolver flips the reversed-flag and pre-reserves a
16-bit window. -/
def c2Node : ASTNodeBitfield := ⟨[advanceEntry 4], false, false, some ⟨[some 0, some 16]⟩⟩

/-- The pattern produced by evaluating `c2Node` from `baseEv`. -/
def c2Pat : BitfieldPattern :=
  { startPos := ⟨0, 0⟩, bitSize := 16, reversed := true, sectionId := 0, fields := [] }

/-- The evaluator returned by evaluating `c2Node` from `baseEv`: the cursor
ends two bytes past the pre-call position, not at it. -/
def c2EvOut : Evaluator := { baseEv with bitPos := ⟨2, 0⟩ }

/-- The evaluator state right after `c2Node`'s order resolver ran. -/
def c2Ev1 : Evaluator := { baseEv with bitPos := ⟨2, 0⟩, reversed := true }

/-- A bitfield declaring `bitfield_order(1, 12)` (LeastToMostSignificant,
fixed size 12) with one 5-bit field; under little-endian `baseEv` the
reversed-flag does not change. -/
def c4Node : ASTNodeBitfield := ⟨[advanceEntry 5], false, false, some ⟨[some 1, some 12]⟩⟩

/-- The pattern produced by evaluating `c4Node` from `baseEv`: the declared
fixed size wins over the 5 bits actually consumed. -/
def c4Pat : BitfieldPattern :=
  { startPos := ⟨0, 0⟩, bitSize := 12, reversed := false, sectionId := 0, fields := [] }

/-- The evaluator returned by evaluating `c4Node` from `baseEv`. -/
def c4EvOut : Evaluator := { baseEv with bitPos := ⟨0, 5⟩ }

/-- A bitfield whose `bitfield_order` attribute carries three arguments. -/
def c5Node : ASTNodeBitfield := ⟨[], false, false, some ⟨[some 0, some 4, some 1]⟩⟩

/-- A bitfield carrying both deprecated direction attributes, a malformed
order attribute and a field, exercising the priority of the deprecation
check. -/
def c8Node : ASTNodeBitfield := ⟨[advanceEntry 4], true, true, some ⟨[some 7]⟩⟩

/-- A plain bitfield with a 4-bit padding member followed by a 4-bit named
member. -/
def c9Node : ASTNodeBitfield :=
  plainNode [advancePatternEntry 4 paddingMember, advancePatternEntry 4 namedMemberA]

/-! Arithmetic facts about the cursor. -/

/-- Advancing the cursor by `n` bits adds `n` to its total bit count. -/
theorem BitPosition.toBits_advanceBits (p : BitPosition) (n : Nat) :
    (p.advanceBits n).toBits = p.toBits + n := by
  simp only [BitPosition.advanceBits, BitPosition.toBits]
  omega

/-- The bit distance from a position to itself is zero. -/
theorem bitDistance_self (p : BitPosition) : bitDistance p p = 0 := by
  unfold bitDistance
  split <;> omega

/-- The bit distance from a position to its `n`-bit advance is `n`. -/
theorem bitDistance_advanceBits (p : BitPosition) (n : Nat) :
    bitDistance p (p.advanceBits n) = n := by
  unfold bitDistance
  rw [BitPosition.toBits_advanceBits]
  split <;> omega

/-! Step lemmas for the field loop. -/

/-- With no declared fixed size the loop continues past an entry whose
evaluation succeeds, whenever an array evaluation is in progress or no
early-exit signal is pending. -/
theorem runLoop_zero_cons_step (e : FieldEntry) (rest : List FieldEntry)
    (init : BitPosition) (idx : Nat) (acc : List Pattern) (bs : Nat)
    (ev ev1 : Evaluator) (ps : List Pattern)
    (he : e.eval ev = .ok (ps, ev1))
    (h : ev1.inArray = true ∨ ev1.ctrlFlow = ControlFlowStatement.None) :
    runLoop 0 init (e :: rest) idx acc bs ev =
      runLoop 0 init rest (idx + 1) (acc ++ ps)
        (bitDistance init ev1.bitPos) ev1 := by
  conv_lhs => unfold runLoop
  rw [he]
  rcases h with h | h
  · simp [h]
  · cases hi : ev1.inArray <;> simp [h, hi]

/-- With no declared fixed size, an entry that leaves the Continue signal
pending outside an array context stops the loop, clears the signal, and
discards the whole accumulator. -/
theorem runLoop_zero_cons_continue (e : FieldEntry) (rest : List FieldEntry)
    (init : BitPosition) (idx : Nat) (acc : List Pattern) (bs : Nat)
    (ev ev1 : Evaluator) (ps : List Pattern)
    (he : e.eval ev = .ok (ps, ev1))
    (ha : ev1.inArray = false)
    (hc : ev1.ctrlFlow = ControlFlowStatement.Continue) :
    runLoop 0 init (e :: rest) idx acc bs ev =
      .ok ([], bitDistance init ev1.bitPos,
           { ev1 with ctrlFlow := ControlFlowStatement.None }) := by
  unfold runLoop
  rw [he]
  simp [ha, hc]

/-- With no declared fixed size, an entry that leaves the Break signal
pending outside an array context stops the loop, clears the signal, and
keeps everything accumulated so far. -/
theorem runLoop_zero_cons_break (e : FieldEntry) (rest : List FieldEntry)
    (init : BitPosition) (idx : Nat) (acc : List Pattern) (bs : Nat)
    (ev ev1 : Evaluator) (ps : List Pattern)
    (he : e.eval ev = .ok (ps, ev1))
    (ha : ev1.inArray = false)
    (hc : ev1.ctrlFlow = ControlFlowStatement.Break) :
    runLoop 0 init (e :: rest) idx acc bs ev =
      .ok (acc ++ ps, bitDistance init ev1.bitPos,
           { ev1 with ctrlFlow := ControlFlowStatement.None }) := by
  unfold runLoop
  rw [he]
  simp [ha, hc]

/-- On a declaration without attributes, `createPatterns` reduces to the
field loop followed by assembly: no deprecated-attribute error, no order
override, fixed size `0`, no cursor rewind, and the reversed-flag restored to
its (unchanged) entry value. -/
theorem createPatterns_plainNode_ok (entries : List FieldEntry)
    (ev : Evaluator) (ps : List Pattern) (bs : Nat) (ev2 : Evaluator)
    (h : runLoop 0 ev.bitPos entries 0 [] 0 ev = .ok (ps, bs, ev2)) :
    createPatterns (plainNode entries) ev =
      .ok ({ startPos := ev.bitPos, bitSize := bs, reversed := ev2.reversed,
             sectionId := ev.sectionId, fields := assembleFields ps },
           { ev2 with reversed := ev.reversed }) := by
  unfold createPatterns badDirectionAttribute processOrderAttribute plainNode
  simp [h]

/-- When a fixed size was declared (`fixedSize > 0`), every `setSize` call
stores exactly the fixed size, so a successful loop that ran at least one
entry (or started with the fixed size already stored) ends with the fixed
size stored. -/
theorem runLoop_ok_fixed (fs : Nat) (init : BitPosition) (hfs : 0 < fs) :
    ∀ (entries : List FieldEntry) (idx : Nat) (acc : List Pattern) (bs : Nat)
      (ev : Evaluator) (ps : List Pattern) (out : Nat) (ev2 : Evaluator),
      runLoop fs init entries idx acc bs ev = .ok (ps, out, ev2) →
      (entries ≠ [] ∨ bs = fs) → out = fs := by
  intro entries
  induction entries with
  | nil =>
    intro idx acc bs ev ps out ev2 h hpre
    simp [runLoop] at h
    rcases hpre with hpre | hpre
    · exact absurd rfl hpre
    · obtain ⟨-, h2, -⟩ := h
      omega
  | cons e rest ih =>
    intro idx acc bs ev ps out ev2 h hpre
    unfold runLoop at h
    cases he : e.eval ev with
    | error err =>
      simp only [he] at h
      simp at h
    | ok v =>
      obtain ⟨ps1, ev1⟩ := v
      simp only [he] at h
      rw [if_pos hfs] at h
      split at h
      · simp at h
      · split at h
        · exact ih _ _ _ _ _ _ _ h (Or.inr rfl)
        · split at h
          · obtain ⟨-, h2, -⟩ := by simpa using h
            omega
          · obtain ⟨-, h2, -⟩ := by simpa using h
            omega
          · obtain ⟨-, h2, -⟩ := by simpa using h
            omega
          · exact ih _ _ _ _ _ _ _ h (Or.inr rfl)

/-- When no fixed size was declared, the stored bit size tracks the distance
between the loop's starting position and the current cursor, so a successful
loop ends with the distance to the exit cursor stored. -/
theorem runLoop_ok_zero (init : BitPosition) :
    ∀ (entries : List FieldEntry) (idx : Nat) (acc : List Pattern) (bs : Nat)
      (ev : Evaluator) (ps : List Pattern) (out : Nat) (ev2 : Evaluator),
      runLoop 0 init entries idx acc bs ev = .ok (ps, out, ev2) →
      bs = bitDistance init ev.bitPos → out = bitDistance init ev2.bitPos := by
  intro entries
  induction entries with
  | nil =>
    intro idx acc bs ev ps out ev2 h hbs
    simp [runLoop] at h
    obtain ⟨-, h2, h3⟩ := h
    subst h3
    omega
  | cons e rest ih =>
    intro idx acc bs ev ps out ev2 h hbs
    unfold runLoop at h
    cases he : e.eval ev with
    | error err =>
      simp only [he] at h
      simp at h
    | ok v =>
      obtain ⟨ps1, ev1⟩ := v
      simp only [he, Nat.lt_irrefl, false_and, if_false] at h
      split at h
      · exact ih _ _ _ _ _ _ _ h rfl
      · split at h
        · obtain ⟨-, h2, h3⟩ := by simpa using h
          subst h3
          omega
        · obtain ⟨-, h2, h3⟩ := by simpa using h
          subst h3
          simpa using h2.symm
        · obtain ⟨-, h2, h3⟩ := by simpa using h
          subst h3
          simpa using h2.symm
        · exact ih _ _ _ _ _ _ _ h rfl

/-- Without a `bitfield_order` attribute the resolver reports no change and
no fixed size and leaves the evaluator untouched (source line 56: the whole
block is skipped). -/
theorem processOrderAttribute_none (node : ASTNodeBitfield) (ev : Evaluator)
    (h : node.orderAttribute = none) :
    processOrderAttribute node ev = .ok (false, 0, ev) := by
  unfold processOrderAttribute
  rw [h]

/-- When the resolver reports that the reversed-flag changed, the evaluator
cursor it returns is the entry cursor advanced by the declared fixed size
(the pre-reservation of source line 92). -/
theorem processOrderAttribute_changed_bitPos (node : ASTNodeBitfield)
    (ev : Evaluator) (sz : Nat) (ev1 : Evaluator)
    (h : processOrderAttribute node ev = .ok (true, sz, ev1)) :
    ev1.bitPos = ev.bitPos.advanceBits sz := by
  unfold processOrderAttribute at h
  split at h
  · simp at h
  · split at h
    · rename_i attr heq harity
      cases hd : resolveDirection (attr.args.getD 0 none) with
      | error err =>
        simp only [hd] at h
        simp at h
      | ok order =>
        simp only [hd] at h
        cases hs : resolveSize (attr.args.getD 1 none) with
        | error err =>
          simp only [hs] at h
          simp at h
        | ok size =>
          simp only [hs] at h
          split at h
          · obtain ⟨h1, h2⟩ := by simpa using h
            subst h1
            rw [← h2]
          · simp at h
    · simp at h

/-! Claim theorems. -/

/-- Claim C1: the claim states that the global reversed-flag after
`createPatterns` returns or propagates an error always equals its pre-call
value.  The code violates this: on `c1Node` the order resolver overwrites
the flag (source line 93), the size error of line 115 then propagates as an
exception, and the restoration on line 157 never runs — the flag stays
`true` although it was `false` before the call. -/
theorem c1_reversed_flag_leaks_on_size_error :
    createPatterns c1Node baseEv = .error (.fieldsExceededSize 0, c1ErrEv)
      ∧ c1ErrEv.reversed = true ∧ baseEv.reversed = false :=
  ⟨rfl, rfl, rfl⟩

/-- Claim C2 (counterexample): the claim states that when the reversed-flag
changed, the cursor is rewound to the snapshot taken at the start of the
call, before the fixed-size window was pre-reserved.  On `c2Node` from
`baseEv` the evaluation succeeds but the final cursor is the pre-call
position advanced by the 16-bit window, not the pre-call position. -/
theorem c2_not_rewound_to_precall_position :
    createPatterns c2Node baseEv = .ok (c2Pat, c2EvOut)
      ∧ baseEv.bitPos = ⟨0, 0⟩ ∧ c2EvOut.bitPos = ⟨2, 0⟩
      ∧ c2EvOut.bitPos ≠ baseEv.bitPos :=
  ⟨rfl, rfl, rfl, by decide⟩

/-- Claim C2 (amended): when the order-override attribute causes the
reversed-flag to change, then after field evaluation and assembly the bit
cursor is rewound to the snapshot taken just after the fixed-size window was
pre-reserved — that is, to the pre-call position advanced by the declared
fixed size (source line 152 restores `initialPosition` of line 107, which
was captured after the pre-advance of line 92). -/
theorem c2_rewound_to_post_reservation_snapshot
    (node : ASTNodeBitfield) (ev : Evaluator) (sz : Nat) (ev1 : Evaluator)
    (pat : BitfieldPattern) (evOut : Evaluator)
    (hord : processOrderAttribute node ev = .ok (true, sz, ev1))
    (hok : createPatterns node ev = .ok (pat, evOut)) :
    evOut.bitPos = ev1.bitPos ∧ evOut.bitPos = ev.bitPos.advanceBits sz := by
  have hadv := processOrderAttribute_changed_bitPos node ev sz ev1 hord
  unfold createPatterns at hok
  cases hbad : badDirectionAttribute node with
  | some attrName =>
    simp only [hbad] at hok
    simp at hok
  | none =>
    simp only [hbad, hord] at hok
    cases hloop : runLoop sz ev1.bitPos node.entries 0 [] 0 ev1 with
    | error e =>
      simp only [hloop] at hok
      simp at hok
    | ok v =>
      obtain ⟨ps, bs, ev2⟩ := v
      simp only [hloop] at hok
      obtain ⟨-, h2⟩ := by simpa using hok
      have hpos : evOut.bitPos = ev1.bitPos := by rw [← h2]
      exact ⟨hpos, hpos.trans hadv⟩

/-- Claim C2 (witness for the amended theorem): on `c2Node` from `baseEv`
the final cursor is the pre-call cursor advanced by the declared 16 bits. -/
theorem c2_rewound_witness :
    c2EvOut.bitPos = baseEv.bitPos.advanceBits 16 :=
  (c2_rewound_to_post_reservation_snapshot c2Node baseEv 16 c2Ev1 c2Pat c2EvOut rfl rfl).2

/-- Claim C8: a declaration carrying a deprecated direction-only attribute
fails with a semantic error naming that attribute as no longer supported,
regardless of the entries, the other attributes, and the evaluator state,
and the evaluator is left untouched (the check of source lines 45-53 runs
before the order attribute and before any field). -/
theorem c8_deprecated_attribute_rejected (node : ASTNodeBitfield) (ev : Evaluator)
    (h : node.hasLeftToRight = true ∨ node.hasRightToLeft = true) :
    ∃ attrName, badDirectionAttribute node = some attrName ∧
      (attrName = "left_to_right" ∨ attrName = "right_to_left") ∧
      createPatterns node ev = .error (.deprecatedAttribute attrName, ev) := by
  rcases h with h | h
  · exact ⟨"left_to_right", by simp [badDirectionAttribute, h], Or.inl rfl,
      by simp [createPatterns, badDirectionAttribute, h]⟩
  · cases hl : node.hasLeftToRight
    · exact ⟨"right_to_left", by simp [badDirectionAttribute, hl, h], Or.inr rfl,
        by simp [createPatterns, badDirectionAttribute, hl, h]⟩
    · exact ⟨"left_to_right", by simp [badDirectionAttribute, hl], Or.inl rfl,
        by simp [createPatterns, badDirectionAttribute, hl]⟩

/-- Claim C8 (witness): `c8Node` carries both deprecated attributes plus a
malformed order attribute and a field, and still fails with the
`left_to_right` deprecation error, leaving the evaluator untouched. -/
theorem c8_deprecated_witness :
    ∃ attrName, badDirectionAttribute c8Node = some attrName ∧
      (attrName = "left_to_right" ∨ attrName = "right_to_left") ∧
      createPatterns c8Node baseEv = .error (.deprecatedAttribute attrName, baseEv) :=
  c8_deprecated_attribute_rejected c8Node baseEv (Or.inl rfl)

/-- The bit distance from a position to its advance by `a` then `b` bits is
`a + b`. -/
theorem bitDistance_advanceBits_twice (p : BitPosition) (a b : Nat) :
    bitDistance p ((p.advanceBits a).advanceBits b) = a + b := by
  unfold bitDistance
  rw [BitPosition.toBits_advanceBits, BitPosition.toBits_advanceBits]
  split <;> omega

/-- Claim C3: for fields `[A, B, C]` where B leaves the Continue signal
pending outside an array/loop context, the loop stops after B (the result
does not depend on C), the signal is reset to `None`, and the whole
accumulator — A's patterns included — is discarded, so the visible member
list is empty. -/
theorem c3_continue_discards_all (A B : FieldEntry) (ev : Evaluator)
    (patsA patsB : List Pattern) (ev1 ev2 : Evaluator)
    (hA : A.eval ev = .ok (patsA, ev1))
    (h1c : ev1.ctrlFlow = ControlFlowStatement.None)
    (_h1a : ev1.inArray = false)
    (hB : B.eval ev1 = .ok (patsB, ev2))
    (h2c : ev2.ctrlFlow = ControlFlowStatement.Continue)
    (h2a : ev2.inArray = false) :
    ∀ C : FieldEntry,
      createPatterns (plainNode [A, B, C]) ev =
        .ok ({ startPos := ev.bitPos, bitSize := bitDistance ev.bitPos ev2.bitPos,
               reversed := ev2.reversed, sectionId := ev.sectionId, fields := [] },
             { ev2 with ctrlFlow := ControlFlowStatement.None, reversed := ev.reversed }) := by
  intro C
  have hloop : runLoop 0 ev.bitPos [A, B, C] 0 [] 0 ev =
      .ok ([], bitDistance ev.bitPos ev2.bitPos,
           { ev2 with ctrlFlow := ControlFlowStatement.None }) := by
    rw [runLoop_zero_cons_step A [B, C] ev.bitPos 0 [] 0 ev ev1 patsA hA (Or.inr h1c)]
    exact runLoop_zero_cons_continue B [C] ev.bitPos 1 ([] ++ patsA) _ ev1 ev2 patsB hB h2a h2c
  exact createPatterns_plainNode_ok [A, B, C] ev [] _ _ hloop

/-- Claim C3 (witness): concrete run of `[A, B(Continue), C]` from `baseEv`
ending with an empty member list and a cleared signal. -/
theorem c3_witness :
    createPatterns
        (plainNode [advancePatternEntry 4 namedMemberA,
                    signalEntry ControlFlowStatement.Continue,
                    advancePatternEntry 4 paddingMember]) baseEv =
      .ok ({ startPos := baseEv.bitPos,
             bitSize := bitDistance baseEv.bitPos ⟨0, 4⟩,
             reversed := false, sectionId := baseEv.sectionId, fields := [] },
           { baseEv with bitPos := ⟨0, 4⟩ }) :=
  c3_continue_discards_all _ _ baseEv [namedMemberA] []
    { baseEv with bitPos := ⟨0, 4⟩ }
    { baseEv with bitPos := ⟨0, 4⟩, ctrlFlow := ControlFlowStatement.Continue }
    rfl rfl rfl rfl rfl rfl _

/-- Claim C7: for fields `[A, B]` where B leaves the Break signal pending
outside an array/loop context, the loop stops after B, the signal is reset
to `None`, and everything accumulated so far is kept, so the visible member
list contains exactly A's (non-padding) pattern. -/
theorem c7_break_keeps_accumulated (A B : FieldEntry) (ev : Evaluator)
    (pA : Pattern) (ev1 ev2 : Evaluator)
    (hA : A.eval ev = .ok ([pA], ev1))
    (hvis : (pA.isBitfieldMember && pA.isPadding) = false)
    (h1c : ev1.ctrlFlow = ControlFlowStatement.None)
    (_h1a : ev1.inArray = false)
    (hB : B.eval ev1 = .ok ([], ev2))
    (h2c : ev2.ctrlFlow = ControlFlowStatement.Break)
    (h2a : ev2.inArray = false) :
    createPatterns (plainNode [A, B]) ev =
      .ok ({ startPos := ev.bitPos, bitSize := bitDistance ev.bitPos ev2.bitPos,
             reversed := ev2.reversed, sectionId := ev.sectionId, fields := [pA] },
           { ev2 with ctrlFlow := ControlFlowStatement.None, reversed := ev.reversed }) := by
  have hloop : runLoop 0 ev.bitPos [A, B] 0 [] 0 ev =
      .ok ([pA], bitDistance ev.bitPos ev2.bitPos,
           { ev2 with ctrlFlow := ControlFlowStatement.None }) := by
    rw [runLoop_zero_cons_step A [B] ev.bitPos 0 [] 0 ev ev1 [pA] hA (Or.inr h1c)]
    have hb := runLoop_zero_cons_break B [] ev.bitPos 1 ([] ++ [pA])
      (bitDistance ev.bitPos ev1.bitPos) ev1 ev2 [] hB h2a h2c
    simpa using hb
  have hres := createPatterns_plainNode_ok [A, B] ev [pA] _ _ hloop
  rw [hres]
  simp [assembleFields, hvis]
  cases hm : pA.isBitfieldMember
  · exact Or.inl rfl
  · right
    cases hp : pA.isPadding
    · rfl
    · rw [hm, hp] at hvis
      exact absurd hvis (by decide)

/-- Claim C7 (witness): concrete run of `[A, B(Break)]` from `baseEv`
keeping exactly A's pattern and clearing the signal. -/
theorem c7_witness :
    createPatterns
        (plainNode [advancePatternEntry 4 namedMemberA,
                    signalEntry ControlFlowStatement.Break]) baseEv =
      .ok ({ startPos := baseEv.bitPos,
             bitSize := bitDistance baseEv.bitPos ⟨0, 4⟩,
             reversed := false, sectionId := baseEv.sectionId,
             fields := [namedMemberA] },
           { baseEv with bitPos := ⟨0, 4⟩ }) :=
  c7_break_keeps_accumulated _ _ baseEv namedMemberA
    { baseEv with bitPos := ⟨0, 4⟩ }
    { baseEv with bitPos := ⟨0, 4⟩, ctrlFlow := ControlFlowStatement.Break }
    rfl rfl rfl rfl rfl rfl rfl

/-- Claim C10: when a Continue signal discards the accumulator, only the
member list is emptied — the cursor stays where the evaluated fields left it
and the pattern's bit size still reflects the bits those discarded fields
consumed. -/
theorem c10_continue_keeps_cursor_and_size (A B : FieldEntry) (ev : Evaluator)
    (patsA patsB : List Pattern) (ev1 ev2 : Evaluator)
    (hA : A.eval ev = .ok (patsA, ev1))
    (h1c : ev1.ctrlFlow = ControlFlowStatement.None)
    (_h1a : ev1.inArray = false)
    (hB : B.eval ev1 = .ok (patsB, ev2))
    (h2c : ev2.ctrlFlow = ControlFlowStatement.Continue)
    (h2a : ev2.inArray = false) :
    ∃ pat evOut,
      createPatterns (plainNode [A, B]) ev = .ok (pat, evOut)
        ∧ pat.fields = []
        ∧ evOut.bitPos = ev2.bitPos
        ∧ pat.bitSize = bitDistance ev.bitPos ev2.bitPos := by
  have hloop : runLoop 0 ev.bitPos [A, B] 0 [] 0 ev =
      .ok ([], bitDistance ev.bitPos ev2.bitPos,
           { ev2 with ctrlFlow := ControlFlowStatement.None }) := by
    rw [runLoop_zero_cons_step A [B] ev.bitPos 0 [] 0 ev ev1 patsA hA (Or.inr h1c)]
    exact runLoop_zero_cons_continue B [] ev.bitPos 1 ([] ++ patsA) _ ev1 ev2 patsB hB h2a h2c
  exact ⟨_, _, createPatterns_plainNode_ok [A, B] ev [] _ _ hloop, rfl, rfl, rfl⟩

/-- Claim C10 (witness): concrete Continue discard after a 4-bit field —
the member list is empty, yet the cursor stays 4 bits in and the bit size
is 4. -/
theorem c10_witness :
    ∃ pat evOut,
      createPatterns
          (plainNode [advancePatternEntry 4 paddingMember,
                      signalEntry ControlFlowStatement.Continue]) baseEv =
        .ok (pat, evOut)
        ∧ pat.fields = []
        ∧ evOut.bitPos = ⟨0, 4⟩
        ∧ pat.bitSize = 4 :=
  c10_continue_keeps_cursor_and_size _ _ baseEv [paddingMember] []
    { baseEv with bitPos := ⟨0, 4⟩ }
    { baseEv with bitPos := ⟨0, 4⟩, ctrlFlow := ControlFlowStatement.Continue }
    rfl rfl rfl rfl rfl rfl

/-- Claim C9: padding bitfield members are excluded from the visible member
list by assembly while their bits still count toward the size: in general a
member-and-padding pattern never survives `assembleFields`, and concretely a
plain bitfield of a 4-bit padding member followed by a 4-bit named member
has bit size 8 and exactly one visible member. -/
theorem c9_padding_filtered :
    (∀ (ps : List Pattern) (p : Pattern),
        p.isBitfieldMember = true → p.isPadding = true → p ∉ assembleFields ps)
    ∧ ∀ ev : Evaluator, ev.ctrlFlow = ControlFlowStatement.None →
        ∃ evOut, createPatterns c9Node ev =
          .ok ({ startPos := ev.bitPos, bitSize := 8, reversed := ev.reversed,
                 sectionId := ev.sectionId, fields := [namedMemberA] }, evOut) := by
  constructor
  · intro ps p hm hp hmem
    unfold assembleFields at hmem
    have hf := List.mem_filter.mp hmem
    rw [hm, hp] at hf
    simp at hf
  · intro ev hc
    have hc1 : ({ ev with bitPos := ev.bitPos.advanceBits 4 } : Evaluator).ctrlFlow
        = ControlFlowStatement.None := hc
    have hc2 : ({ ev with bitPos := (ev.bitPos.advanceBits 4).advanceBits 4 } : Evaluator).ctrlFlow
        = ControlFlowStatement.None := hc
    have hloop : runLoop 0 ev.bitPos
        [advancePatternEntry 4 paddingMember, advancePatternEntry 4 namedMemberA] 0 [] 0 ev =
        .ok ([paddingMember, namedMemberA],
             bitDistance ev.bitPos ((ev.bitPos.advanceBits 4).advanceBits 4),
             { ev with bitPos := (ev.bitPos.advanceBits 4).advanceBits 4 }) := by
      rw [runLoop_zero_cons_step (advancePatternEntry 4 paddingMember)
            [advancePatternEntry 4 namedMemberA] ev.bitPos 0 [] 0 ev
            { ev with bitPos := ev.bitPos.advanceBits 4 } [paddingMember] rfl (Or.inr hc1)]
      rw [runLoop_zero_cons_step (advancePatternEntry 4 namedMemberA)
            [] ev.bitPos 1 ([] ++ [paddingMember]) _
            { ev with bitPos := ev.bitPos.advanceBits 4 }
            { ev with bitPos := (ev.bitPos.advanceBits 4).advanceBits 4 }
            [namedMemberA] rfl (Or.inr hc2)]
      simp [runLoop]
    have hres := createPatterns_plainNode_ok
        [advancePatternEntry 4 paddingMember, advancePatternEntry 4 namedMemberA]
        ev _ _ _ hloop
    refine ⟨{ ev with bitPos := (ev.bitPos.advanceBits 4).advanceBits 4 }, ?_⟩
    show createPatterns
        (plainNode [advancePatternEntry 4 paddingMember, advancePatternEntry 4 namedMemberA]) ev = _
    rw [hres]
    simp [assembleFields, bitDistance_advanceBits_twice, paddingMember, namedMemberA]

/-- Claim C9 (witness): the padding member is filtered out of the concrete
assembly, and the concrete evaluation from `baseEv` yields bit size 8 with
only the named member visible. -/
theorem c9_witness :
    (paddingMember ∉ assembleFields [paddingMember, namedMemberA])
    ∧ ∃ evOut, createPatterns c9Node baseEv =
        .ok ({ startPos := baseEv.bitPos, bitSize := 8, reversed := baseEv.reversed,
               sectionId := baseEv.sectionId, fields := [namedMemberA] }, evOut) :=
  ⟨c9_padding_filtered.1 [paddingMember, namedMemberA] paddingMember rfl rfl,
   c9_padding_filtered.2 baseEv rfl⟩

/-- Claim C6: right after a field evaluates, if a fixed size was declared
and the running bit total since the loop's starting position exceeds it, the
loop raises the size error citing that field's declaration (its index), and
the remaining fields are never run — the result is the error whatever
`rest` contains. -/
theorem c6_size_error_cites_field (entry : FieldEntry) (rest : List FieldEntry)
    (idx fixedSize : Nat) (initialPosition : BitPosition)
    (acc : List Pattern) (bs : Nat) (ev ev1 : Evaluator) (pats : List Pattern)
    (hfs : 0 < fixedSize)
    (heval : entry.eval ev = .ok (pats, ev1))
    (hover : fixedSize < bitDistance initialPosition ev1.bitPos) :
    runLoop fixedSize initialPosition (entry :: rest) idx acc bs ev =
      .error (.fieldsExceededSize idx, ev1) := by
  conv_lhs => unfold runLoop
  rw [heval]
  simp [hfs, hover]

/-- Claim C6 (witness): a 4-bit fixed size with a first field consuming 8
bits raises the size error citing field index 0. -/
theorem c6_witness :
    runLoop 4 (⟨0, 0⟩ : BitPosition) [advanceEntry 8] 0 [] 0 baseEv =
      .error (.fieldsExceededSize 0, { baseEv with bitPos := ⟨1, 0⟩ }) :=
  c6_size_error_cites_field (advanceEntry 8) [] 0 4 ⟨0, 0⟩ [] 0 baseEv
    { baseEv with bitPos := ⟨1, 0⟩ } [] (by decide) rfl (by decide)

/-- Claim C4: on a successful evaluation with at least one field, the
returned pattern's bit size is the declared fixed size when a (valid)
order-override attribute was present, and otherwise the bit distance
between the loop's starting cursor and the final cursor (with no override
there is no pre-advance and no rewind, so the loop's start and exit cursors
are the call's entry and exit cursors). -/
theorem c4_final_bit_size (node : ASTNodeBitfield) (ev : Evaluator)
    (pat : BitfieldPattern) (evOut : Evaluator)
    (hok : createPatterns node ev = .ok (pat, evOut))
    (hne : node.entries ≠ []) :
    (∀ changed sz ev1, processOrderAttribute node ev = .ok (changed, sz, ev1) →
        0 < sz → pat.bitSize = sz)
    ∧ (node.orderAttribute = none →
        pat.bitSize = bitDistance ev.bitPos evOut.bitPos) := by
  unfold createPatterns at hok
  cases hbad : badDirectionAttribute node with
  | some a =>
    simp only [hbad] at hok
    simp at hok
  | none =>
    simp only [hbad] at hok
    cases hord : processOrderAttribute node ev with
    | error e =>
      simp only [hord] at hok
      simp at hok
    | ok trip =>
      obtain ⟨ch, sz0, ev1⟩ := trip
      simp only [hord] at hok
      cases hloop : runLoop sz0 ev1.bitPos node.entries 0 [] 0 ev1 with
      | error e =>
        simp only [hloop] at hok
        simp at hok
      | ok v =>
        obtain ⟨ps, out, ev2⟩ := v
        simp only [hloop] at hok
        obtain ⟨h1, h2⟩ := by simpa using hok
        constructor
        · intro changed sz ev1x hord2 hsz
          obtain ⟨hch, hsz0, hev1⟩ := by simpa using hord2
          have hpos : 0 < sz0 := by omega
          have hout : out = sz0 :=
            runLoop_ok_fixed sz0 ev1.bitPos hpos node.entries 0 [] 0 ev1 ps out ev2
              hloop (Or.inl hne)
          have hps : pat.bitSize = out := by rw [← h1]
          omega
        · intro hnone
          have hred := processOrderAttribute_none node ev hnone
          rw [hred] at hord
          obtain ⟨hch, hsz0, hev1⟩ := by simpa using hord
          subst hch
          subst hsz0
          subst hev1
          have hout : out = bitDistance ev.bitPos ev2.bitPos :=
            runLoop_ok_zero ev.bitPos node.entries 0 [] 0 ev ps out ev2 hloop
              (bitDistance_self _).symm
          have hps : pat.bitSize = out := by rw [← h1]
          have hpos2 : evOut.bitPos = ev2.bitPos := by
            rw [← h2]
            simp
          rw [hps, hpos2]
          exact hout

/-- Claim C4 (witness): `c4Node` declares `bitfield_order(1, 12)` and its
single field consumes 5 bits, yet the final bit size is the declared 12. -/
theorem c4_witness : c4Pat.bitSize = 12 :=
  (c4_final_bit_size c4Node baseEv c4Pat c4EvOut rfl
      (List.cons_ne_nil _ _)).1 false 12 baseEv rfl (by decide)

/-- Claim C5: with a `bitfield_order` attribute present, the resolver raises
a semantic (attribute) error exactly when the argument count differs from
two, or the direction argument does not evaluate to a literal integer equal
to 0 or 1, or the size argument does not evaluate to a literal integer
strictly greater than zero. -/
theorem c5_order_attribute_error_iff (node : ASTNodeBitfield)
    (attr : OrderAttribute) (ev : Evaluator)
    (h : node.orderAttribute = some attr) :
    (∃ e, processOrderAttribute node ev = .error e ∧ e.isAttributeError = true) ↔
      (attr.args.length ≠ 2
        ∨ ¬(attr.args.getD 0 none = some 0 ∨ attr.args.getD 0 none = some 1)
        ∨ ¬(∃ v, attr.args.getD 1 none = some v ∧ 0 < v)) := by
  unfold processOrderAttribute
  simp only [h]
  by_cases hlen : attr.args.length = 2
  · rw [if_pos hlen]
    cases hd : attr.args.getD 0 none with
    | none =>
      simp [resolveDirection, EvalError.isAttributeError, hlen]
    | some v =>
      rcases v with _ | v1
      · cases hs : attr.args.getD 1 none with
        | none =>
          simp [resolveDirection, resolveSize, EvalError.isAttributeError, hlen]
        | some w =>
          rcases w with _ | w1
          · simp [resolveDirection, resolveSize, EvalError.isAttributeError, hlen]
          · simp only [resolveDirection, resolveSize]
            split <;> simp [hlen]
      · rcases v1 with _ | w
        · cases hs : attr.args.getD 1 none with
          | none =>
            simp [resolveDirection, resolveSize, EvalError.isAttributeError, hlen]
          | some w =>
            rcases w with _ | w1
            · simp [resolveDirection, resolveSize, EvalError.isAttributeError, hlen]
            · simp only [resolveDirection, resolveSize]
              split <;> simp [hlen]
        · simp [resolveDirection, EvalError.isAttributeError, hlen]
  · rw [if_neg hlen]
    simp [EvalError.isAttributeError, hlen]

/-- Claim C5 (witness): a three-argument `bitfield_order` invocation fails
with an attribute error. -/
theorem c5_witness :
    ∃ e, processOrderAttribute c5Node baseEv = .error e
      ∧ e.isAttributeError = true :=
  (c5_order_attribute_error_iff c5Node ⟨[some 0, some 4, some 1]⟩ baseEv rfl).mpr
    (Or.inl (by decide))
